import Mathlib

/-!
Shallow embedding of the GPU Vertex Block Descent (VBD) integrator of
ETSTribology/PhysicsBasedAnimationToolkit, as implemented in
`source/pbat/gpu/vbd/VbdImpl.cu`, together with the pieces of
`BvhQueryImpl` (capacity validation) and `pba::physics::LameCoefficients`
that the verified properties refer to.

Scalars (`GpuScalar`) are embedded as exact rationals `ℚ`; 3-vectors as
`ℚ × ℚ × ℚ`; device buffers as Lean lists indexed by vertex id.  The
per-vertex GPU kernels (one logical task per vertex) become `zipWith`-style
maps over these lists.

The bodies of the device kernels `InertialTarget`,
`InitialPositionsForSolve`, `ChebyshevOmega`, `ChebyshevUpdate`,
`IntegrateVelocity` and `MinimizeBackwardEuler` live in
`pbat/sim/vbd/Kernels.h` / `Kernels.cuh`, which are not part of the
inspected sources; only their call sites in `VbdImpl.cu` are.  The first
four scalar formulas are modelled from the spec (each such definition says
so in its doc comment); the vertex-solve kernel `MinimizeBackwardEuler`
and the initialization-strategy kernel `InitialPositionsForSolve` are kept
abstract: the orchestration definitions take them as function parameters
(`sweep`, `init`), and every theorem below holds for all of them.
-/

/-- A 3-vector of exact scalars, embedding a per-vertex `(x, y, z)` triple. -/
abbrev Vec3 : Type := ℚ × ℚ × ℚ

/-- Pointwise combination of three equally indexed device buffers, the
list analogue of launching one GPU thread per vertex index that reads the
i-th entry of three buffers.  Truncates at the shortest buffer. -/
def zipWith3 {α β γ δ : Type} (f : α → β → γ → δ) : List α → List β → List γ → List δ
  | a :: as, b :: bs, c :: cs => f a b c :: zipWith3 f as bs cs
  | _, _, _ => []

theorem zipWith3_nil_left {α β γ δ : Type} (f : α → β → γ → δ) (bs : List β) (cs : List γ) :
    zipWith3 f [] bs cs = [] := by
  cases bs <;> cases cs <;> rfl

theorem lt_zipWith3_length {α β γ δ : Type} (f : α → β → γ → δ) :
    ∀ (as : List α) (bs : List β) (cs : List γ) (i : Nat),
      i < as.length → i < bs.length → i < cs.length →
      i < (zipWith3 f as bs cs).length
  | a :: as, b :: bs, c :: cs, 0, _, _, _ => Nat.succ_pos _
  | a :: as, b :: bs, c :: cs, i + 1, ha, hb, hc =>
      Nat.succ_lt_succ (lt_zipWith3_length f as bs cs i
        (Nat.lt_of_succ_lt_succ ha) (Nat.lt_of_succ_lt_succ hb) (Nat.lt_of_succ_lt_succ hc))

theorem zipWith3_get {α β γ δ : Type} (f : α → β → γ → δ) :
    ∀ (as : List α) (bs : List β) (cs : List γ) (i : Nat)
      (ha : i < as.length) (hb : i < bs.length) (hc : i < cs.length)
      (h : i < (zipWith3 f as bs cs).length),
      (zipWith3 f as bs cs).get ⟨i, h⟩ =
        f (as.get ⟨i, ha⟩) (bs.get ⟨i, hb⟩) (cs.get ⟨i, hc⟩)
  | a :: as, b :: bs, c :: cs, 0, _, _, _, _ => rfl
  | a :: as, b :: bs, c :: cs, i + 1, ha, hb, hc, h =>
      zipWith3_get f as bs cs i (Nat.lt_of_succ_lt_succ ha) (Nat.lt_of_succ_lt_succ hb)
        (Nat.lt_of_succ_lt_succ hc) (Nat.lt_of_succ_lt_succ h)

theorem map_zipWith3 {α β γ δ ε : Type} (g : δ → ε) (f : α → β → γ → δ) :
    ∀ (as : List α) (bs : List β) (cs : List γ),
      (zipWith3 f as bs cs).map g = zipWith3 (fun a b c => g (f a b c)) as bs cs
  | a :: as, b :: bs, c :: cs => by
      simp only [zipWith3, List.map_cons]
      exact congrArg _ (map_zipWith3 g f as bs cs)
  | [], bs, cs => by simp [zipWith3_nil_left]
  | a :: as, [], cs => by cases cs <;> rfl
  | a :: as, b :: bs, [] => rfl

/-- Modelled from the spec: the device kernel
`pbat::sim::vbd::kernels::InertialTarget` is declared in
`pbat/sim/vbd/Kernels.h`, which is not among the inspected sources; the
spec gives its formula as `xtilde = xt + sdt*v + sdt^2*aext`
(the point the unconstrained inertia would reach). -/
def InertialTarget (xt v aext : Vec3) (dt dt2 : ℚ) : Vec3 :=
  xt + dt • v + dt2 • aext

/-- Modelled from the spec: the device kernel
`pbat::sim::vbd::kernels::IntegrateVelocity` is declared in
`pbat/sim/vbd/Kernels.h`, which is not among the inspected sources; the
spec gives the velocity finalization as the finite difference
`v = (x_new - xt) / sdt`, with no damping term. -/
def IntegrateVelocity (xt x : Vec3) (dt : ℚ) : Vec3 :=
  (1 / dt) • (x - xt)

/-- Modelled from the spec: the device function
`pbat::sim::vbd::kernels::ChebyshevOmega` is declared in
`pbat/sim/vbd/Kernels.h`, which is not among the inspected sources; the
spec gives the standard three-regime schedule `omega = 1` for `k == 0`,
`omega = 2/(2 - rho^2)` for `k == 1`, and
`omega = 4/(4 - rho^2 * omega_prev)` otherwise. -/
def ChebyshevOmega (k : Nat) (rho2 omega : ℚ) : ℚ :=
  if k = 0 then 1
  else if k = 1 then 2 / (2 - rho2)
  else 4 / (4 - rho2 * omega)

/-- Modelled from the spec: the device kernel
`pbat::sim::vbd::kernels::ChebyshevUpdate` is declared in
`pbat/sim/vbd/Kernels.h`, which is not among the inspected sources; the
spec says: for `k < 2`, pass-through (store into history only); for
`k >= 2`, `x_k := omega*(x_k - x_{k-2}) + x_{k-2}`, then roll the
two-entry history (`x_{k-2} <- x_{k-1}`, `x_{k-1} <- x_k`).  The result
triple is the new `(x_{k-2}, x_{k-1}, x_k)`. -/
def ChebyshevUpdate (k : Nat) (omega : ℚ) (xkm2 xkm1 xk : Vec3) : Vec3 × Vec3 × Vec3 :=
  let xkNew := if 2 ≤ k then omega • (xk - xkm2) + xkm2 else xk
  (xkm1, xkNew, xkNew)

/-- The persistent device state owned by `VbdImpl`
(`source/pbat/gpu/vbd/VbdImpl.cu`, members listed in the constructor's
initializer list, lines 26-54).  Buffer names follow the members, with
the `m` prefix dropped where it reads better; `x` is `X.x` (the current
positions), `T`, `F`, `V` the topology index buffers. -/
structure VbdState where
  x : List Vec3
  V : List Nat
  F : List (List Nat)
  T : List (List Nat)
  xt : List Vec3
  xtilde : List Vec3
  xchebm2 : List Vec3
  xchebm1 : List Vec3
  vt : List Vec3
  v : List Vec3
  aext : List Vec3
  m : List ℚ
  wg : List ℚ
  GP : List ℚ
  lame : List ℚ
  detHZero : ℚ
  GVTp : List Nat
  GVTn : List Nat
  GVTilocal : List Nat
  kD : ℚ
  kC : ℚ
  maxCollidingTrianglesPerVertex : Nat
  FC : List Nat
  nCollidingTriangles : List Nat
  partitions : List (List Nat)
deriving DecidableEq

/-- The constructor `VbdImpl::VbdImpl` (`VbdImpl.cu` lines 21-61):
buffers are allocated at the sizes of the input mesh, positions are
copied from the input, `mPositionsAtT = X.x`, velocities (current and
previous), and external accelerations are zeroed, masses are set to
`1e3`, `mDetHZero = 1e-10`, `mRayleighDamping = 0`,
`mCollisionPenalty = 1e3`, `mMaxCollidingTrianglesPerVertex = 8`, and the
partition list starts empty.  Buffers the constructor only allocates are
embedded as zero-filled, matching value-initialized device storage. -/
def VbdImplInit (Xin : List Vec3) (Vin : List Nat) (Fi Ti : List (List Nat)) : VbdState where
  x := Xin
  V := Vin
  F := Fi
  T := Ti
  xt := Xin
  xtilde := List.replicate Xin.length 0
  xchebm2 := List.replicate Xin.length 0
  xchebm1 := List.replicate Xin.length 0
  vt := List.replicate Xin.length 0
  v := List.replicate Xin.length 0
  aext := List.replicate Xin.length 0
  m := List.replicate Xin.length 1000
  wg := List.replicate Ti.length 0
  GP := List.replicate (Ti.length * 4 * 3) 0
  lame := List.replicate (2 * Ti.length) 0
  detHZero := 1 / 10000000000
  GVTp := List.replicate (Xin.length + 1) 0
  GVTn := []
  GVTilocal := []
  kD := 0
  kC := 1000
  maxCollidingTrianglesPerVertex := 8
  FC := List.replicate (8 * Xin.length) 0
  nCollidingTriangles := List.replicate Xin.length 0
  partitions := []

/-- The per-vertex Chebyshev pass of `VbdImpl::Step` (`VbdImpl.cu` lines
182-199): one task per vertex applies `ChebyshevUpdate` to that vertex's
entries of `mChebyshevPositionsM2`, `mChebyshevPositionsM1` and `X.x`,
writing back all three. -/
def chebyshevAll (k : Nat) (omega : ℚ) (s : VbdState) : VbdState :=
  let upd := zipWith3 (fun m2 m1 xv => ChebyshevUpdate k omega m2 m1 xv) s.xchebm2 s.xchebm1 s.x
  { s with
    xchebm2 := upd.map (fun t => t.1)
    xchebm1 := upd.map (fun t => t.2.1)
    x := upd.map (fun t => t.2.2) }

/-- `bool const bUseChebyshevAcceleration = rho > GpuScalar{0} and rho <
GpuScalar{1};` (`VbdImpl.cu` line 68). -/
def bUseChebyshevAcceleration (rho : ℚ) : Bool :=
  decide (0 < rho) && decide (rho < 1)

/-- One outer BCD iteration of `VbdImpl::Step` (`VbdImpl.cu` lines
159-200): if acceleration is enabled the relaxation weight is advanced by
`ChebyshevOmega` before the partition sweep; the sequential sweep over
partitions (launches of the `MinimizeBackwardEuler` kernel, whose body is
not among the inspected sources) is the abstract `sweep`, which produces
the new position buffer; if acceleration is enabled the per-vertex
Chebyshev update then runs over the whole buffer.  Returns the carried
`omega` together with the new state. -/
def bcdIter (sweep : Nat → VbdState → List Vec3) (bUseCheb : Bool) (rho2 : ℚ)
    (k : Nat) (omega : ℚ) (s : VbdState) : ℚ × VbdState :=
  let omegaNew := if bUseCheb then ChebyshevOmega k rho2 omega else omega
  let sSwept := { s with x := sweep k s }
  if bUseCheb then (omegaNew, chebyshevAll k omegaNew sSwept) else (omegaNew, sSwept)

/-- The `for (auto k = 0; k < iterations; ++k)` loop of `VbdImpl::Step`
(`VbdImpl.cu` lines 159-200), with `n` iterations left, current iteration
index `k`, and the carried relaxation weight `omega`. -/
def bcdLoopAux (sweep : Nat → VbdState → List Vec3) (bUseCheb : Bool) (rho2 : ℚ) :
    Nat → Nat → ℚ → VbdState → ℚ × VbdState
  | 0, _, omega, s => (omega, s)
  | n + 1, k, omega, s =>
      let r := bcdIter sweep bUseCheb rho2 k omega s
      bcdLoopAux sweep bUseCheb rho2 n (k + 1) r.1 r.2

/-- The value held by the loop variable `omega` of `VbdImpl::Step` right
after `omega = ChebyshevOmega(k, rho2, omega)` executes at outer
iteration `k` (`VbdImpl.cu` lines 155 and 159-163): `omega` starts the
substep at `0` and is advanced once per iteration, before the partition
sweep of that iteration. -/
def omegaAt (rho2 : ℚ) : Nat → ℚ
  | 0 => ChebyshevOmega 0 rho2 0
  | k + 1 => ChebyshevOmega (k + 1) rho2 (omegaAt rho2 k)

/-- One substep of `VbdImpl::Step` (`VbdImpl.cu` lines 96-221): snapshot
positions into `mPositionsAtT` (lines 99-107), compute the inertial
targets (lines 108-128), initialize the BCD solution by the selected
strategy (lines 129-152; the `InitialPositionsForSolve` kernel is not
among the inspected sources, so it is the abstract `init`), run the outer
iteration loop (lines 159-200), snapshot velocities into
`mVelocitiesAtT` (lines 201-209), and finalize velocities (lines
210-220). -/
def substep (init : VbdState → List Vec3) (sweep : Nat → VbdState → List Vec3)
    (bUseCheb : Bool) (rho2 : ℚ) (iterations : Nat) (sdt : ℚ) (s0 : VbdState) : VbdState :=
  let s1 := { s0 with xt := s0.x }
  let s2 := { s1 with
    xtilde := zipWith3 (fun a b c => InertialTarget a b c sdt (sdt * sdt)) s1.xt s1.v s1.aext }
  let s3 := { s2 with x := init s2 }
  let s4 := (bcdLoopAux sweep bUseCheb rho2 iterations 0 0 s3).2
  let s5 := { s4 with vt := s4.v }
  { s5 with v := List.zipWith (fun a b => IntegrateVelocity a b sdt) s5.xt s5.x }

/-- The strictly sequential `for (auto s = 0; s < substeps; ++s)` loop of
`VbdImpl::Step` (`VbdImpl.cu` line 96). -/
def substepLoop (f : VbdState → VbdState) : Nat → VbdState → VbdState
  | 0, s => s
  | n + 1, s => substepLoop f n (f s)

/-- Whether an `Except` result is a success. -/
def isOkE {α : Type} : Except String α → Bool
  | Except.ok _ => true
  | Except.error _ => false

/-- `VbdImpl::Step(dt, iterations, substeps, rho)` (`VbdImpl.cu` lines
63-223).  The substep size is `sdt = dt / substeps` (line 65), Chebyshev
acceleration is gated on `rho` (line 68), `rho2 = rho * rho` (line 154),
and `substeps` substeps run in sequence.  The function body contains no
validation and no throw statement, so the embedding, fallible like any
C++ member, always returns `Except.ok`. -/
def VbdStep (init : VbdState → List Vec3) (sweep : Nat → VbdState → List Vec3)
    (dt : ℚ) (iterations substeps : Nat) (rho : ℚ) (s : VbdState) :
    Except String VbdState :=
  Except.ok (substepLoop
    (substep init sweep (bUseChebyshevAcceleration rho) (rho * rho) iterations
      (dt / (substeps : ℚ)))
    substeps s)

/-- The message built by `VbdImpl::SetVertexTetrahedronAdjacencyList`
(`VbdImpl.cu` lines 272-275) when the neighbour and ilocal arrays
disagree in size; it names both sizes. -/
def adjacencyErrorMessage (nn ni : Nat) : String :=
  "Expected vertex-tetrahedron adjacency graph neighbour array and data (ilocal) array to have the same size, but got neighbours=" ++
    toString nn ++ ", ilocal=" ++ toString ni ++ " \n"

/-- `VbdImpl::SetVertexTetrahedronAdjacencyList` (`VbdImpl.cu` lines
265-284): validate `GVTn.size() == GVTilocal.size()` first; on mismatch
throw `std::invalid_argument` before touching any device buffer; on
success resize and copy all three adjacency buffers.  The pair returns
the call outcome together with the post-call state. -/
def SetVertexTetrahedronAdjacencyList (s : VbdState)
    (GVTp GVTn GVTilocal : List Nat) : Except String Unit × VbdState :=
  if GVTn.length ≠ GVTilocal.length then
    (Except.error (adjacencyErrorMessage GVTn.length GVTilocal.length), s)
  else
    (Except.ok (), { s with GVTp := GVTp, GVTn := GVTn, GVTilocal := GVTilocal })

/-- `VbdImpl::SetVertexPartitions` (`VbdImpl.cu` lines 291-299): resize
the device partition list and copy every group verbatim.  The body
performs no validation of any kind. -/
def SetVertexPartitions (s : VbdState) (partitions : List (List Nat)) :
    Except String Unit × VbdState :=
  (Except.ok (), { s with partitions := partitions })

/-- The state of `BvhQueryImpl`
(`BvhQueryImpl.cu`): the number of boxes allocated at construction
(`NumberOfAllocatedBoxes()` returns `simplex.Size()`, which the
constructor sets to `nPrimitives`).  The box/morton buffer contents are
written only by device kernels that are not among the inspected sources,
so they are left out of the model; the abstract `eff` parameter of
`BvhQueryBuild` stands for their combined effect. -/
structure BvhQueryState where
  nAllocatedBoxes : Nat
deriving DecidableEq

/-- The message built by `BvhQueryImpl::Build` (`BvhQueryImpl.cu` lines
32-34) on capacity overflow; it names the allocated and received
counts. -/
def bvhBuildErrorMessage (allocated received : Nat) : String :=
  "Allocated memory for " ++ toString allocated ++ " boxes, but received " ++
    toString received ++ " simplices."

/-- `BvhQueryImpl::Build` (`BvhQueryImpl.cu` lines 27-66): if more
simplices are received than boxes were allocated, throw
`std::invalid_argument` before launching any kernel; otherwise run the
AABB/morton/sort kernels (the abstract `eff`) over all `n` received
simplices. -/
def BvhQueryBuild (eff : BvhQueryState → Nat → BvhQueryState)
    (s : BvhQueryState) (n : Nat) : Except String BvhQueryState :=
  if s.nAllocatedBoxes < n then
    Except.error (bvhBuildErrorMessage s.nAllocatedBoxes n)
  else
    Except.ok (eff s n)

/-- `pba::physics::LameCoefficients(Y, nu)` (scalar overload, inspected
source): `mu = Y / (2*(1+nu))`, `lambda = Y*nu / ((1+nu)*(1-2*nu))`. -/
def LameCoefficients (Y nu : ℚ) : ℚ × ℚ :=
  (Y / (2 * (1 + nu)), Y * nu / ((1 + nu) * (1 - 2 * nu)))

/-- Modelled from the spec: the vectorized overload of
`pba::physics::LameCoefficients` is declared in
`pba/physics/HyperElasticity.h`, which is not among the inspected
sources; only its test is.  It is modelled as the elementwise application
of the scalar formula over paired coefficient vectors, consistent with
the glossary (Lamé coefficients derived per material sample from Young's
modulus and Poisson's ratio) and with the behavior the test asserts. -/
def LameCoefficientsV (Ys nus : List ℚ) : List ℚ × List ℚ :=
  (List.zipWith (fun y n => (LameCoefficients y n).1) Ys nus,
   List.zipWith (fun y n => (LameCoefficients y n).2) Ys nus)

/-- Following the spec's words, for comparison with the code: some buffer
set via a `Set*` operation "does not match the sizes declared at
construction", the construction sizes being one entry per vertex for the
velocity, external-acceleration and mass buffers and `#vertices + 1` for
the adjacency prefix. -/
def specSizesMismatch (s : VbdState) : Bool :=
  decide (s.m.length ≠ s.x.length) || decide (s.v.length ≠ s.x.length) ||
  decide (s.aext.length ≠ s.x.length) || decide (s.GVTp.length ≠ s.x.length + 1)

/-- Whether vertices `i` and `j` share an incident element of the
tetrahedron list `Ti` (each element given as its vertex list). -/
def sharesIncidentElement (Ti : List (List Nat)) (i j : Nat) : Bool :=
  Ti.any (fun tet => tet.contains i && tet.contains j)

/-- All unordered pairs of entries at distinct positions of a list. -/
def listPairs {α : Type} : List α → List (α × α)
  | [] => []
  | a :: as => as.map (fun b => (a, b)) ++ listPairs as

/-- Following the spec's words, for comparison with the code: the
supplied partition violates the invariant that within one group no two
vertices share an incident element. -/
def specPartitionInvalid (Ti : List (List Nat)) (groups : List (List Nat)) : Bool :=
  groups.any (fun g => (listPairs g).any (fun p => sharesIncidentElement Ti p.1 p.2))

/-- The outer iteration loop only writes the position and Chebyshev
history buffers: the snapshot `xt`, the inertial targets `xtilde`, and
the current velocities `v` pass through untouched. -/
theorem bcdLoopAux_preserves (sweep : Nat → VbdState → List Vec3) (bUseCheb : Bool) (rho2 : ℚ) :
    ∀ (n k : Nat) (omega : ℚ) (s : VbdState),
      ((bcdLoopAux sweep bUseCheb rho2 n k omega s).2.xt = s.xt ∧
       (bcdLoopAux sweep bUseCheb rho2 n k omega s).2.xtilde = s.xtilde ∧
       (bcdLoopAux sweep bUseCheb rho2 n k omega s).2.v = s.v)
  | 0, _, _, _ => ⟨rfl, rfl, rfl⟩
  | n + 1, k, omega, s => by
      have ih := bcdLoopAux_preserves sweep bUseCheb rho2 n (k + 1)
        (bcdIter sweep bUseCheb rho2 k omega s).1 (bcdIter sweep bUseCheb rho2 k omega s).2
      have hiter : (bcdIter sweep bUseCheb rho2 k omega s).2.xt = s.xt ∧
          (bcdIter sweep bUseCheb rho2 k omega s).2.xtilde = s.xtilde ∧
          (bcdIter sweep bUseCheb rho2 k omega s).2.v = s.v := by
        cases bUseCheb <;> simp [bcdIter, chebyshevAll]
      exact ⟨by simp only [bcdLoopAux]; rw [ih.1, hiter.1],
             by simp only [bcdLoopAux]; rw [ih.2.1, hiter.2.1],
             by simp only [bcdLoopAux]; rw [ih.2.2, hiter.2.2]⟩

/-- The inertial-target buffer produced by a substep, expressed over the
substep's input state. -/
theorem substep_xtilde (init : VbdState → List Vec3) (sweep : Nat → VbdState → List Vec3)
    (bUseCheb : Bool) (rho2 : ℚ) (iterations : Nat) (sdt : ℚ) (s0 : VbdState) :
    (substep init sweep bUseCheb rho2 iterations sdt s0).xtilde =
      zipWith3 (fun a b c => InertialTarget a b c sdt (sdt * sdt)) s0.x s0.v s0.aext := by
  simp only [substep]
  exact (bcdLoopAux_preserves sweep bUseCheb rho2 iterations 0 0 _).2.1

/-- The position snapshot `mPositionsAtT` taken at the top of a substep
survives the substep unchanged and holds the substep's input
positions. -/
theorem substep_xt (init : VbdState → List Vec3) (sweep : Nat → VbdState → List Vec3)
    (bUseCheb : Bool) (rho2 : ℚ) (iterations : Nat) (sdt : ℚ) (s0 : VbdState) :
    (substep init sweep bUseCheb rho2 iterations sdt s0).xt = s0.x := by
  simp only [substep]
  exact (bcdLoopAux_preserves sweep bUseCheb rho2 iterations 0 0 _).1

theorem bcdLoopAux_xt (sweep : Nat → VbdState → List Vec3) (bUseCheb : Bool) (rho2 : ℚ)
    (n k : Nat) (omega : ℚ) (s : VbdState) :
    (bcdLoopAux sweep bUseCheb rho2 n k omega s).2.xt = s.xt :=
  (bcdLoopAux_preserves sweep bUseCheb rho2 n k omega s).1

theorem bcdLoopAux_xtilde (sweep : Nat → VbdState → List Vec3) (bUseCheb : Bool) (rho2 : ℚ)
    (n k : Nat) (omega : ℚ) (s : VbdState) :
    (bcdLoopAux sweep bUseCheb rho2 n k omega s).2.xtilde = s.xtilde :=
  (bcdLoopAux_preserves sweep bUseCheb rho2 n k omega s).2.1

theorem zipWith3_getElemOpt {α β γ δ : Type} (f : α → β → γ → δ) :
    ∀ (as : List α) (bs : List β) (cs : List γ) (i : Nat)
      (ha : i < as.length) (hb : i < bs.length) (hc : i < cs.length),
      (zipWith3 f as bs cs)[i]? =
        some (f (as.get ⟨i, ha⟩) (bs.get ⟨i, hb⟩) (cs.get ⟨i, hc⟩))
  | a :: as, b :: bs, c :: cs, 0, _, _, _ => by simp [zipWith3]
  | a :: as, b :: bs, c :: cs, i + 1, ha, hb, hc => by
      simp only [zipWith3, List.getElem?_cons_succ]
      rw [zipWith3_getElemOpt f as bs cs i (Nat.lt_of_succ_lt_succ ha)
        (Nat.lt_of_succ_lt_succ hb) (Nat.lt_of_succ_lt_succ hc)]
      rfl

/-- C1: with Chebyshev acceleration enabled, the relaxation weight the
loop of `VbdImpl::Step` computes before the partition sweep of outer
iteration `k` follows the three-regime schedule: `omega = 1` at `k = 0`,
`omega = 2/(2 - rho^2)` at `k = 1`, and
`omega = 4/(4 - rho^2 * omega_prev)` for `k >= 2`; and each iteration of
the embedded loop advances the weight by exactly one `ChebyshevOmega`
application to the previous weight. -/
theorem C1_chebyshev_omega_schedule (rho : ℚ) (k : Nat) (hk : 2 ≤ k) :
    omegaAt (rho * rho) 0 = 1 ∧
    omegaAt (rho * rho) 1 = 2 / (2 - rho * rho) ∧
    omegaAt (rho * rho) k = 4 / (4 - rho * rho * omegaAt (rho * rho) (k - 1)) ∧
    (∀ (sweep : Nat → VbdState → List Vec3) (omega : ℚ) (s : VbdState),
      (bcdIter sweep true (rho * rho) k omega s).1 = ChebyshevOmega k (rho * rho) omega) := by
  refine ⟨rfl, rfl, ?_, fun _ _ _ => rfl⟩
  obtain ⟨m, rfl⟩ := Nat.exists_eq_add_of_le' hk
  rw [show m + 2 - 1 = m + 1 from rfl,
    show omegaAt (rho * rho) (m + 2) =
      ChebyshevOmega (m + 2) (rho * rho) (omegaAt (rho * rho) (m + 1)) from rfl,
    ChebyshevOmega, if_neg (by omega), if_neg (by omega)]

/-- Witness for C1 at `rho = 1/2`, `k = 3`. -/
theorem C1_chebyshev_omega_schedule_witness :
    omegaAt ((1/2 : ℚ) * (1/2)) 0 = 1 ∧
    omegaAt ((1/2 : ℚ) * (1/2)) 1 = 2 / (2 - (1/2 : ℚ) * (1/2)) ∧
    omegaAt ((1/2 : ℚ) * (1/2)) 3 =
      4 / (4 - (1/2 : ℚ) * (1/2) * omegaAt ((1/2 : ℚ) * (1/2)) (3 - 1)) ∧
    (∀ (sweep : Nat → VbdState → List Vec3) (omega : ℚ) (s : VbdState),
      (bcdIter sweep true ((1/2 : ℚ) * (1/2)) 3 omega s).1 =
        ChebyshevOmega 3 ((1/2 : ℚ) * (1/2)) omega) :=
  C1_chebyshev_omega_schedule (1/2) 3 (by decide)

/-- C2: the per-vertex Chebyshev step is pass-through for `k < 2`
(the accelerated position equals the unaccelerated one, and is only
stored into the rolled history), while for `k >= 2` the position becomes
`omega*(x_k - x_km2) + x_km2` and the two-entry history rolls
(`x_km2 <- x_km1`, `x_km1 <- x_k`); the whole-buffer pass of
`VbdImpl::Step` applies exactly this update at every vertex of the
position and history buffers. -/
theorem C2_chebyshev_update (k : Nat) (omega : ℚ) (xkm2 xkm1 xk : Vec3) (s : VbdState) :
    (k < 2 → ChebyshevUpdate k omega xkm2 xkm1 xk = (xkm1, xk, xk)) ∧
    (2 ≤ k → ChebyshevUpdate k omega xkm2 xkm1 xk =
      (xkm1, omega • (xk - xkm2) + xkm2, omega • (xk - xkm2) + xkm2)) ∧
    (chebyshevAll k omega s).x =
      zipWith3 (fun m2 m1 xv => (ChebyshevUpdate k omega m2 m1 xv).2.2)
        s.xchebm2 s.xchebm1 s.x ∧
    (chebyshevAll k omega s).xchebm2 =
      zipWith3 (fun m2 m1 xv => (ChebyshevUpdate k omega m2 m1 xv).1)
        s.xchebm2 s.xchebm1 s.x ∧
    (chebyshevAll k omega s).xchebm1 =
      zipWith3 (fun m2 m1 xv => (ChebyshevUpdate k omega m2 m1 xv).2.1)
        s.xchebm2 s.xchebm1 s.x := by
  refine ⟨?_, ?_, ?_, ?_, ?_⟩
  · intro h
    simp only [ChebyshevUpdate]
    rw [if_neg (Nat.not_le.mpr h)]
  · intro h
    simp only [ChebyshevUpdate]
    rw [if_pos h]
  · simp [chebyshevAll, map_zipWith3]
  · simp [chebyshevAll, map_zipWith3]
  · simp [chebyshevAll, map_zipWith3]

/-- Witness for C2 at `k = 0` (pass-through) and `k = 5` (extrapolation),
on concrete vectors. -/
theorem C2_chebyshev_update_witness :
    ChebyshevUpdate 0 (2 : ℚ) ((1 : ℚ), 0, 0) ((0 : ℚ), 1, 0) ((0 : ℚ), 0, 1) =
      (((0 : ℚ), 1, 0), ((0 : ℚ), 0, 1), ((0 : ℚ), 0, 1)) ∧
    ChebyshevUpdate 5 (2 : ℚ) ((1 : ℚ), 0, 0) ((0 : ℚ), 1, 0) ((0 : ℚ), 0, 1) =
      (((0 : ℚ), 1, 0),
       (2 : ℚ) • (((0 : ℚ), 0, 1) - ((1 : ℚ), 0, 0)) + ((1 : ℚ), 0, 0),
       (2 : ℚ) • (((0 : ℚ), 0, 1) - ((1 : ℚ), 0, 0)) + ((1 : ℚ), 0, 0)) :=
  ⟨(C2_chebyshev_update 0 2 (1, 0, 0) (0, 1, 0) (0, 0, 1)
      (VbdImplInit [] [] [] [])).1 (by decide),
   (C2_chebyshev_update 5 2 (1, 0, 0) (0, 1, 0) (0, 0, 1)
      (VbdImplInit [] [] [] [])).2.1 (by decide)⟩

/-- C3: Chebyshev acceleration is enabled exactly when `0 < rho < 1`;
with the flag off, an outer iteration leaves the relaxation weight alone
and performs only the partition sweep (no omega schedule, no per-vertex
Chebyshev update), and `Step` wires the flag computed from `rho` into
every substep. -/
theorem C3_rho_gating (rho : ℚ) :
    (bUseChebyshevAcceleration rho = true ↔ (0 < rho ∧ rho < 1)) ∧
    (bUseChebyshevAcceleration rho = false →
      ∀ (sweep : Nat → VbdState → List Vec3) (rho2 : ℚ) (k : Nat) (omega : ℚ) (s : VbdState),
        bcdIter sweep (bUseChebyshevAcceleration rho) rho2 k omega s =
          (omega, { s with x := sweep k s })) ∧
    (∀ (init : VbdState → List Vec3) (sweep : Nat → VbdState → List Vec3)
        (dt : ℚ) (iterations substeps : Nat) (s : VbdState),
      VbdStep init sweep dt iterations substeps rho s =
        Except.ok (substepLoop
          (substep init sweep (bUseChebyshevAcceleration rho) (rho * rho) iterations
            (dt / (substeps : ℚ))) substeps s)) := by
  refine ⟨?_, ?_, fun _ _ _ _ _ _ => rfl⟩
  · simp [bUseChebyshevAcceleration]
  · intro h sweep rho2 k omega s
    rw [h]
    rfl

/-- Witness for C3 at `rho = 2` (acceleration disabled). -/
theorem C3_rho_gating_witness :
    bcdIter (fun _ s => s.x) (bUseChebyshevAcceleration (2 : ℚ)) (4 : ℚ) 0 (0 : ℚ)
        (VbdImplInit [] [] [] []) =
      (0, { VbdImplInit [] [] [] [] with x := (VbdImplInit [] [] [] []).x }) :=
  (C3_rho_gating 2).2.1 (by decide) (fun _ s => s.x) 4 0 0 (VbdImplInit [] [] [] [])

/-- C4: in every substep, the inertial target of vertex `i` is
`xtilde_i = xt_i + sdt*v_i + sdt^2*aext_i`, computed from the
start-of-substep position snapshot, the current velocity and the external
acceleration; the outer iterations and the velocity phase never rewrite
it, so this is the value the whole substep works against, for any
initialization strategy and any vertex-solve kernel. -/
theorem C4_inertial_target (init : VbdState → List Vec3) (sweep : Nat → VbdState → List Vec3)
    (bUseCheb : Bool) (rho2 : ℚ) (iterations : Nat) (sdt : ℚ) (s0 : VbdState) (i : Nat)
    (hx : i < s0.x.length) (hv : i < s0.v.length) (ha : i < s0.aext.length) :
    (substep init sweep bUseCheb rho2 iterations sdt s0).xtilde[i]? =
      some (s0.x.get ⟨i, hx⟩ + sdt • s0.v.get ⟨i, hv⟩ +
        (sdt * sdt) • s0.aext.get ⟨i, ha⟩) := by
  rw [substep_xtilde, zipWith3_getElemOpt _ s0.x s0.v s0.aext i hx hv ha]
  rfl

/-- Witness for C4 on a one-vertex state with nonzero velocity and
acceleration, `sdt = 1/10`, two accelerated iterations. -/
theorem C4_inertial_target_witness :
    (substep (fun s => s.x) (fun _ s => s.x) true (1/4 : ℚ) 2 (1/10 : ℚ)
        { VbdImplInit [((1 : ℚ), 2, 3)] [0] [] [] with
            v := [((1 : ℚ), 0, 0)], aext := [((0 : ℚ), 0, -10)] }).xtilde[0]? =
      some (({ VbdImplInit [((1 : ℚ), 2, 3)] [0] [] [] with
            v := [((1 : ℚ), 0, 0)], aext := [((0 : ℚ), 0, -10)] } : VbdState).x.get
          ⟨0, by decide⟩ +
        (1/10 : ℚ) • ({ VbdImplInit [((1 : ℚ), 2, 3)] [0] [] [] with
            v := [((1 : ℚ), 0, 0)], aext := [((0 : ℚ), 0, -10)] } : VbdState).v.get
          ⟨0, by decide⟩ +
        ((1/10 : ℚ) * (1/10)) • ({ VbdImplInit [((1 : ℚ), 2, 3)] [0] [] [] with
            v := [((1 : ℚ), 0, 0)], aext := [((0 : ℚ), 0, -10)] } : VbdState).aext.get
          ⟨0, by decide⟩) :=
  C4_inertial_target (fun s => s.x) (fun _ s => s.x) true (1/4) 2 (1/10)
    { VbdImplInit [((1 : ℚ), 2, 3)] [0] [] [] with
        v := [((1 : ℚ), 0, 0)], aext := [((0 : ℚ), 0, -10)] }
    0 (by decide) (by decide) (by decide)

/-- C5: at the end of every substep the velocity buffer equals the
vertexwise finite difference of the post-iteration positions against the
start-of-substep snapshot, `v = (x_new - xt) / sdt`, with
`IntegrateVelocity` adding no damping term; the snapshot `xt` is exactly
the substep's input positions. -/
theorem C5_velocity_update (init : VbdState → List Vec3) (sweep : Nat → VbdState → List Vec3)
    (bUseCheb : Bool) (rho2 : ℚ) (iterations : Nat) (sdt : ℚ) (s0 : VbdState) :
    (substep init sweep bUseCheb rho2 iterations sdt s0).xt = s0.x ∧
    (substep init sweep bUseCheb rho2 iterations sdt s0).v =
      List.zipWith (fun a b => IntegrateVelocity a b sdt) s0.x
        (substep init sweep bUseCheb rho2 iterations sdt s0).x ∧
    (∀ xt x : Vec3, IntegrateVelocity xt x sdt = (1 / sdt) • (x - xt)) := by
  refine ⟨substep_xt init sweep bUseCheb rho2 iterations sdt s0, ?_, fun _ _ => rfl⟩
  simp only [substep, bcdLoopAux_xt]

/-- C6 counterexample: a state whose mass buffer does not match the
per-vertex size fixed at construction, on which `Step` nevertheless
succeeds — `VbdImpl::Step` contains no size validation and no failure
path at all, so it cannot fail with an invalid-argument condition on
mismatched buffers. -/
theorem C6_step_validation_counterexample :
    specSizesMismatch { VbdImplInit [((0 : ℚ), 0, 0)] [0] [] [] with m := [] } = true ∧
    isOkE (VbdStep (fun s => s.x) (fun _ s => s.x) 1 1 1 (1/2)
      { VbdImplInit [((0 : ℚ), 0, 0)] [0] [] [] with m := [] }) = true :=
  ⟨by decide, rfl⟩

/-- C6 (amended): `VbdImpl::Step` never fails — it performs no
validation of any buffer and launches its kernels unconditionally —
while the capacity-overflow check of the claim lives in
`BvhQueryImpl::Build`, which reports an invalid-argument condition
naming the allocated and received counts before launching any kernel
when more simplices arrive than boxes were allocated, and otherwise
processes all received simplices (no truncation). -/
theorem C6_step_no_validation (init : VbdState → List Vec3) (sweep : Nat → VbdState → List Vec3)
    (dt : ℚ) (iterations substeps : Nat) (rho : ℚ) (s : VbdState)
    (eff : BvhQueryState → Nat → BvhQueryState) (bs : BvhQueryState) (n : Nat) :
    isOkE (VbdStep init sweep dt iterations substeps rho s) = true ∧
    (bs.nAllocatedBoxes < n →
      BvhQueryBuild eff bs n = Except.error (bvhBuildErrorMessage bs.nAllocatedBoxes n)) ∧
    (n ≤ bs.nAllocatedBoxes → BvhQueryBuild eff bs n = Except.ok (eff bs n)) := by
  refine ⟨rfl, ?_, ?_⟩
  · intro h
    simp only [BvhQueryBuild]
    rw [if_pos h]
  · intro h
    simp only [BvhQueryBuild]
    rw [if_neg (Nat.not_lt.mpr h)]

/-- Witness for the amended C6: two allocated boxes reject three
received simplices with the sized message and accept two; `Step` on an
empty state succeeds. -/
theorem C6_step_no_validation_witness :
    BvhQueryBuild (fun b _ => b) ⟨2⟩ 3 = Except.error (bvhBuildErrorMessage 2 3) ∧
    BvhQueryBuild (fun b _ => b) ⟨2⟩ 2 = Except.ok (⟨2⟩ : BvhQueryState) ∧
    isOkE (VbdStep (fun s => s.x) (fun _ s => s.x) 1 1 1 0 (VbdImplInit [] [] [] [])) = true :=
  ⟨(C6_step_no_validation (fun s => s.x) (fun _ s => s.x) 1 1 1 0 (VbdImplInit [] [] [] [])
      (fun b _ => b) ⟨2⟩ 3).2.1 (by decide),
   (C6_step_no_validation (fun s => s.x) (fun _ s => s.x) 1 1 1 0 (VbdImplInit [] [] [] [])
      (fun b _ => b) ⟨2⟩ 2).2.2 (by decide),
   (C6_step_no_validation (fun s => s.x) (fun _ s => s.x) 1 1 1 0 (VbdImplInit [] [] [] [])
      (fun b _ => b) ⟨2⟩ 3).1⟩

/-- C7: `SetVertexTetrahedronAdjacencyList` reports an invalid-argument
condition exactly when the neighbour and ilocal arrays differ in size,
with a message naming both sizes, and in that case the state is returned
untouched — the validation runs before any buffer mutation; with equal
sizes all three adjacency buffers are replaced. -/
theorem C7_adjacency_size_check (s : VbdState) (GVTp GVTn GVTilocal : List Nat) :
    (GVTn.length ≠ GVTilocal.length →
      SetVertexTetrahedronAdjacencyList s GVTp GVTn GVTilocal =
        (Except.error (adjacencyErrorMessage GVTn.length GVTilocal.length), s) ∧
      ∃ pre mid post : String,
        adjacencyErrorMessage GVTn.length GVTilocal.length =
          pre ++ toString GVTn.length ++ mid ++ toString GVTilocal.length ++ post) ∧
    (GVTn.length = GVTilocal.length →
      SetVertexTetrahedronAdjacencyList s GVTp GVTn GVTilocal =
        (Except.ok (), { s with GVTp := GVTp, GVTn := GVTn, GVTilocal := GVTilocal })) := by
  constructor
  · intro h
    refine ⟨?_, "Expected vertex-tetrahedron adjacency graph neighbour array and data (ilocal) array to have the same size, but got neighbours=", ", ilocal=", " \n", rfl⟩
    simp only [SetVertexTetrahedronAdjacencyList]
    rw [if_pos h]
  · intro h
    simp only [SetVertexTetrahedronAdjacencyList]
    rw [if_neg (not_not_intro h)]

/-- Witness for C7: a two-neighbour, one-ilocal call fails with the
message naming sizes 2 and 1 and leaves the state untouched; the
matching-size call replaces the three buffers. -/
theorem C7_adjacency_size_check_witness :
    (SetVertexTetrahedronAdjacencyList (VbdImplInit [] [] [] []) [0] [1, 2] [3] =
        (Except.error (adjacencyErrorMessage 2 1), VbdImplInit [] [] [] []) ∧
      ∃ pre mid post : String,
        adjacencyErrorMessage 2 1 =
          pre ++ toString (2 : Nat) ++ mid ++ toString (1 : Nat) ++ post) ∧
    SetVertexTetrahedronAdjacencyList (VbdImplInit [] [] [] []) [0] [1, 2] [3, 4] =
      (Except.ok (), { VbdImplInit [] [] [] [] with
        GVTp := [0], GVTn := [1, 2], GVTilocal := [3, 4] }) :=
  ⟨(C7_adjacency_size_check (VbdImplInit [] [] [] []) [0] [1, 2] [3]).1 (by decide),
   (C7_adjacency_size_check (VbdImplInit [] [] [] []) [0] [1, 2] [3, 4]).2 (by decide)⟩

/-- C8 counterexample: a partition whose single group holds two vertices
of the same tetrahedron — violating the no-shared-element invariant —
is accepted and stored verbatim by `SetVertexPartitions`, which contains
no validation (and no debug assertion) at all. -/
theorem C8_partition_check_counterexample :
    specPartitionInvalid
      ((VbdImplInit [((0 : ℚ), 0, 0), ((1 : ℚ), 0, 0)] [0, 1] [] [[0, 1, 2, 3]]).T)
      [[0, 1]] = true ∧
    SetVertexPartitions (VbdImplInit [((0 : ℚ), 0, 0), ((1 : ℚ), 0, 0)] [0, 1] [] [[0, 1, 2, 3]])
        [[0, 1]] =
      (Except.ok (), { VbdImplInit [((0 : ℚ), 0, 0), ((1 : ℚ), 0, 0)] [0, 1] [] [[0, 1, 2, 3]] with
        partitions := [[0, 1]] }) :=
  ⟨by decide, rfl⟩

/-- C8 (amended): `SetVertexPartitions` unconditionally succeeds and
stores the supplied groups verbatim, touching nothing else; the
no-shared-element partition invariant is an unchecked precondition — no
validation or assertion exists in any build. -/
theorem C8_partitions_stored_unvalidated (s : VbdState) (partitions : List (List Nat)) :
    (SetVertexPartitions s partitions).1 = Except.ok () ∧
    (SetVertexPartitions s partitions).2.partitions = partitions ∧
    (SetVertexPartitions s partitions).2.x = s.x ∧
    (SetVertexPartitions s partitions).2.T = s.T :=
  ⟨rfl, rfl, rfl, rfl⟩

/-- C9: directly after construction every vertex has zero velocity, zero
previous-substep velocity, zero external acceleration and lumped mass
`1e3`; the position buffer is the constructor's input; and the scalar
configuration defaults are `mDetHZero = 1e-10`, `mRayleighDamping = 0`,
`mCollisionPenalty = 1e3` and a colliding-triangle cap of 8. -/
theorem C9_constructor_defaults (Xin : List Vec3) (Vin : List Nat) (Fi Ti : List (List Nat)) :
    (VbdImplInit Xin Vin Fi Ti).v = List.replicate Xin.length ((0 : ℚ), (0 : ℚ), (0 : ℚ)) ∧
    (VbdImplInit Xin Vin Fi Ti).vt = List.replicate Xin.length ((0 : ℚ), (0 : ℚ), (0 : ℚ)) ∧
    (VbdImplInit Xin Vin Fi Ti).aext = List.replicate Xin.length ((0 : ℚ), (0 : ℚ), (0 : ℚ)) ∧
    (VbdImplInit Xin Vin Fi Ti).m = List.replicate Xin.length (1000 : ℚ) ∧
    (VbdImplInit Xin Vin Fi Ti).x = Xin ∧
    (VbdImplInit Xin Vin Fi Ti).detHZero = 1 / 10000000000 ∧
    (VbdImplInit Xin Vin Fi Ti).kD = 0 ∧
    (VbdImplInit Xin Vin Fi Ti).kC = 1000 ∧
    (VbdImplInit Xin Vin Fi Ti).maxCollidingTrianglesPerVertex = 8 :=
  ⟨rfl, rfl, rfl, rfl, rfl, rfl, rfl, rfl, rfl⟩

/-- C10: the scalar `LameCoefficients` returns
`mu = Y / (2*(1+nu))` and `lambda = Y*nu / ((1+nu)*(1-2*nu))`, and the
vectorized overload on constant coefficient vectors replicates the
scalar results elementwise. -/
theorem C10_lame_coefficients (Y nu : ℚ) (k : Nat) (h1 : nu ≠ -1) (h2 : nu ≠ 1/2) :
    LameCoefficients Y nu = (Y / (2 * (1 + nu)), Y * nu / ((1 + nu) * (1 - 2 * nu))) ∧
    LameCoefficientsV (List.replicate k Y) (List.replicate k nu) =
      (List.replicate k (LameCoefficients Y nu).1,
       List.replicate k (LameCoefficients Y nu).2) := by
  refine ⟨rfl, ?_⟩
  have hz : ∀ (f : ℚ → ℚ → ℚ) (n : Nat),
      List.zipWith f (List.replicate n Y) (List.replicate n nu) = List.replicate n (f Y nu) := by
    intro f n
    induction n with
    | zero => rfl
    | succ n ih => simp only [List.replicate, List.zipWith_cons_cons, ih]
  simp only [LameCoefficientsV, hz]

/-- Witness for C10 at the test's material parameters `Y = 1e6`,
`nu = 0.45`, five coefficients. -/
theorem C10_lame_coefficients_witness :
    LameCoefficients 1000000 (9/20) =
      ((1000000 : ℚ) / (2 * (1 + 9/20)),
       (1000000 : ℚ) * (9/20) / ((1 + 9/20) * (1 - 2 * (9/20)))) ∧
    LameCoefficientsV (List.replicate 5 (1000000 : ℚ)) (List.replicate 5 ((9 : ℚ)/20)) =
      (List.replicate 5 (LameCoefficients 1000000 (9/20)).1,
       List.replicate 5 (LameCoefficients 1000000 (9/20)).2) :=
  C10_lame_coefficients 1000000 (9/20) 5 (by norm_num) (by norm_num)
